import Mathlib

/-!
# Verification of the image-editor client

Shallow embedding of the repository's non-UI logic:

* `src/types.ts` — `EditResponse`, `AppState`;
* `src/services/geminiService.ts` — `editImageWithGemini`: request shaping
  (text part followed by inline image parts, base64 prefix cleaning) and
  response unwrapping (first inline image part, fallback to a text part,
  catch-all error handler);
* `src/components/Editor.tsx` — `processFiles` (upload filtering and the
  accumulated skip message) and `handleGenerate` (submission check, the
  four-state UI status transitions).

JavaScript optional fields become `Option`; JavaScript truthiness on an
optional string (`undefined`, `null` and `""` are falsy) is `strTruthy`,
and the `a || b` idiom on such a value is `jsOr`. The external API call
is nondeterministic, so its outcome (`thrown` with an optional message,
or a response value) is an explicit `ApiOutcome` argument threaded to the
functions that await it. `FileReader.readAsDataURL` on an uploaded file is
modelled by the `dataUrl` field carried by the file value.
-/

/-- JS truthiness of an optional string: absent and `""` are falsy. -/
def strTruthy : Option String → Bool
  | none => false
  | some s => !s.isEmpty

/-- The JS idiom `o || d` where `o` is an optional string and `d` a default. -/
def jsOr (o : Option String) (d : String) : String :=
  match o with
  | none => d
  | some s => if s.isEmpty then d else s

/-- `src/types.ts` — `EditResponse`. -/
structure EditResponse where
  success : Bool
  image : Option String := none
  error : Option String := none
deriving DecidableEq, Repr

/-- `src/types.ts` — the `AppState` enum. -/
inductive AppState where
  | IDLE
  | PROCESSING
  | SUCCESS
  | ERROR
deriving DecidableEq, Repr

/-- An element of the `imageData` array passed to `editImageWithGemini`. -/
structure ImageInput where
  base64Data : String
  mimeType : String
deriving DecidableEq, Repr

/-- `inlineData` of a response part: both fields are optional in the SDK. -/
structure InlineData where
  mimeType : Option String := none
  data : Option String := none
deriving DecidableEq, Repr

/-- A part of a response candidate's `content.parts`. -/
structure RespPart where
  inlineData : Option InlineData := none
  text : Option String := none
deriving DecidableEq, Repr

/-- A response candidate (its `content.parts`). -/
structure Candidate where
  parts : List RespPart
deriving DecidableEq, Repr

/-- The SDK response: `candidates` may be absent. -/
structure GenResponse where
  candidates : Option (List Candidate) := none
deriving DecidableEq, Repr

/-- Outcome of the awaited external call: either the promise rejected
(`thrown`, carrying the optional `error.message`) or it resolved to a
response value. -/
inductive ApiOutcome where
  | thrown (message : Option String)
  | ok (response : GenResponse)
deriving DecidableEq, Repr

/-- A part of the request `contents`: the text part or an inline image part. -/
inductive RequestPart where
  | text (t : String)
  | inlineImage (mimeType : String) (data : String)
deriving DecidableEq, Repr

/-- The four data-URI headers matched by the regex
`^data:image\/(png|jpeg|jpg|webp);base64,` in `geminiService.ts`. -/
def dataUriHeaders : List String :=
  ["data:image/png;base64,", "data:image/jpeg;base64,",
   "data:image/jpg;base64,", "data:image/webp;base64,"]

/-- `img.base64Data.replace(/^data:image\/(png|jpeg|jpg|webp);base64,/, "")`:
strip one of the four recognised headers when it starts the string,
otherwise leave the string unchanged. -/
def cleanBase64 (s : String) : String :=
  match dataUriHeaders.find? (fun p => p.data.isPrefixOf s.data) with
  | some p => String.mk (s.data.drop p.data.length)
  | none => s

/-- The `imageParts` array built in `editImageWithGemini`. -/
def imagePartsOf (imageData : List ImageInput) : List RequestPart :=
  imageData.map fun img => RequestPart.inlineImage img.mimeType (cleanBase64 img.base64Data)

/-- `allContentsParts = [{text: prompt}, ...imageParts]`. -/
def allContentsParts (imageData : List ImageInput) (prompt : String) : List RequestPart :=
  RequestPart.text prompt :: imagePartsOf imageData

/-- The truthiness test `part.inlineData && part.inlineData.data`. -/
def hasInlineImage (p : RespPart) : Bool :=
  match p.inlineData with
  | none => false
  | some i => strTruthy i.data

/-- The loop over `parts` that keeps the first inline image payload:
skips parts whose `inlineData` is absent or whose `data` is falsy. -/
def firstInline : List RespPart → Option InlineData
  | [] => none
  | p :: rest =>
    match p.inlineData with
    | some i => if strTruthy i.data then some i else firstInline rest
    | none => firstInline rest

/-- Prefixing the raw base64 for display:
`data:${part.inlineData.mimeType || 'image/png'};base64,${data}`. -/
def inlineImageUri (i : InlineData) : String :=
  "data:" ++ jsOr i.mimeType "image/png" ++ ";base64," ++ i.data.getD ""

/-- `parts.find(p => p.text)` — the first part with truthy text. -/
def findTextPart (parts : List RespPart) : Option RespPart :=
  parts.find? fun p => strTruthy p.text

/-- The fixed fallback error when no image and no text part came back. -/
def noImageError : String :=
  "The model processed the request but did not return an image. Try rephrasing your prompt or ensure the request is valid for the provided images."

/-- The fixed fallback error of the catch-all handler. -/
def unexpectedError : String :=
  "An unexpected error occurred while communicating with Gemini."

/-- Response unwrapping on `candidates[0].content.parts`: success with the
first inline image payload as a data URI, else failure with the first text
part's text or the fixed fallback message. -/
def parseParts (parts : List RespPart) : EditResponse :=
  match firstInline parts with
  | some i => { success := true, image := some (inlineImageUri i) }
  | none =>
    { success := false
      error := some (jsOr ((findTextPart parts).bind RespPart.text) noImageError) }

/-- `src/services/geminiService.ts` — `editImageWithGemini`. The request
submitted is `allContentsParts imageData prompt`; `outcome` is what awaiting
the SDK call produced. -/
def editImageWithGemini (imageData : List ImageInput) (prompt : String)
    (outcome : ApiOutcome) : EditResponse :=
  if imageData.length = 0 then
    { success := false, error := some "No image data provided for editing." }
  else
    let _request := allContentsParts imageData prompt
    match outcome with
    | ApiOutcome.thrown msg =>
      { success := false, error := some (jsOr msg unexpectedError) }
    | ApiOutcome.ok resp =>
      match resp.candidates with
      | none => { success := false, error := some "No response candidates from Gemini." }
      | some [] => { success := false, error := some "No response candidates from Gemini." }
      | some (c :: _) => parseParts c.parts

/-- A browser `File` as the Editor uses it: `name`, `type`, and the data URI
that `FileReader.readAsDataURL` (i.e. `convertBlobToBase64`) yields for it. -/
structure JSFile where
  name : String
  type : String
  dataUrl : String
deriving DecidableEq, Repr

/-- The upload filter `selectedFile.type.startsWith('image/')`. -/
def isImageFile (f : JSFile) : Bool :=
  "image/".data.isPrefixOf f.type.data

/-- An entry of the `uploadedImages` state (`UploadedImage` in Editor.tsx). -/
structure UploadedImage where
  id : String
  file : JSFile
  previewUrl : String
  mimeType : String
deriving DecidableEq, Repr

/-- The component state of `Editor`. -/
structure EditorState where
  uploadedImages : List UploadedImage
  resultUrl : Option String
  prompt : String
  appState : AppState
  errorMessage : String
deriving DecidableEq, Repr

/-- The skip message for a non-image file. -/
def skipMessage (name : String) : String :=
  "File \"" ++ name ++ "\" is not a valid image. Skipping."

/-- `setErrorMessage((prev) => (prev ? prev + ' ' : '') + msg)`. -/
def accumulate (prev msg : String) : String :=
  (if prev.isEmpty then "" else prev ++ " ") ++ msg

/-- The loop body of `processFiles`: walks the file list with the loop index
`i`, accumulating skip messages for non-image files and collecting an
`UploadedImage` for each image file. `fresh i` supplies the nondeterministic
unique id and object URL minted for the file at index `i`. -/
def processFilesAux (fresh : Nat → String × String) :
    List JSFile → Nat → String → String × List UploadedImage
  | [], _, err => (err, [])
  | f :: rest, i, err =>
    if isImageFile f then
      let r := processFilesAux fresh rest (i + 1) err
      (r.1, { id := (fresh i).1, file := f, previewUrl := (fresh i).2,
              mimeType := f.type } :: r.2)
    else
      processFilesAux fresh rest (i + 1) (accumulate err (skipMessage f.name))

/-- `src/components/Editor.tsx` — `processFiles`: clears the error message,
walks the files, appends the new images to the existing list, clears the
result and resets the status to IDLE. -/
def processFiles (fresh : Nat → String × String) (s : EditorState)
    (files : List JSFile) : EditorState :=
  let r := processFilesAux fresh files 0 ""
  { s with errorMessage := r.1
           uploadedImages := s.uploadedImages ++ r.2
           resultUrl := none
           appState := AppState.IDLE }

/-- `!prompt.trim()`: the trimmed prompt is the empty string, which holds
exactly when every character of the prompt is whitespace. -/
def promptBlank (prompt : String) : Bool :=
  prompt.data.all Char.isWhitespace

/-- The submission check `uploadedImages.length === 0 || !prompt.trim()`. -/
def submissionBlocked (s : EditorState) : Bool :=
  s.uploadedImages.length == 0 || promptBlank s.prompt

/-- The message shown when the submission check blocks a generate action. -/
def blockedMessage : String :=
  "Please upload at least one image and provide a prompt."

/-- The `imageParts` argument assembled in `handleGenerate`: each uploaded
image's `convertBlobToBase64` result (its file's data URL) with its stored
MIME type, in upload order. -/
def imageInputsOf (imgs : List UploadedImage) : List ImageInput :=
  imgs.map fun img => { base64Data := img.file.dataUrl, mimeType := img.mimeType }

/-- The synchronous head of a non-blocked generate action:
`setAppState(PROCESSING); setErrorMessage('')`. -/
def handleGenerateProcessing (s : EditorState) : EditorState :=
  { s with appState := AppState.PROCESSING, errorMessage := "" }

/-- The completion of a generate action on the service response:
`if (response.success && response.image) { setResultUrl; SUCCESS } else
{ ERROR; setErrorMessage(response.error || 'Failed to generate image.') }`. -/
def handleGenerateComplete (s : EditorState) (r : EditResponse) : EditorState :=
  if r.success && strTruthy r.image then
    { s with resultUrl := r.image, appState := AppState.SUCCESS }
  else
    { s with appState := AppState.ERROR
             errorMessage := jsOr r.error "Failed to generate image." }

/-- `src/components/Editor.tsx` — `handleGenerate`, end to end: the blocked
branch only sets the error message; otherwise the state passes through
`handleGenerateProcessing` and the response of `editImageWithGemini` (on the
given outcome of the external call) is applied by `handleGenerateComplete`.
The outcome argument is irrelevant on the blocked branch because the external
call is never made there. -/
def handleGenerate (s : EditorState) (outcome : ApiOutcome) : EditorState :=
  if submissionBlocked s then
    { s with errorMessage := blockedMessage }
  else
    handleGenerateComplete (handleGenerateProcessing s)
      (editImageWithGemini (imageInputsOf s.uploadedImages) s.prompt outcome)

/-! ## Helper lemmas -/

theorem String.mk_data (s : String) : String.mk s.data = s := rfl

theorem data_eq_nil_iff (s : String) : s.data = [] ↔ s = "" := by
  constructor
  · intro h
    exact String.ext h
  · intro h
    subst h
    rfl

theorem append_ne_empty_left (s t : String) (h : s ≠ "") : s ++ t ≠ "" := by
  intro hc
  apply h
  have hd := congrArg String.data hc
  rw [String.data_append] at hd
  exact (data_eq_nil_iff s).mp (List.append_eq_nil.mp hd).1

theorem append_ne_empty_right (s t : String) (h : t ≠ "") : s ++ t ≠ "" := by
  intro hc
  apply h
  have hd := congrArg String.data hc
  rw [String.data_append] at hd
  exact (data_eq_nil_iff t).mp (List.append_eq_nil.mp hd).2

theorem isEmpty_false_of_ne (s : String) (h : s ≠ "") : s.isEmpty = false := by
  cases he : s.isEmpty
  · rfl
  · exact absurd (String.isEmpty_iff s |>.mp he) h

theorem jsOr_ne_empty (o : Option String) (d : String) (h : d ≠ "") : jsOr o d ≠ "" := by
  cases o with
  | none => simpa [jsOr] using h
  | some s =>
    simp only [jsOr]
    split
    · exact h
    · next he =>
      intro hc
      rw [hc] at he
      exact absurd he (by decide)

theorem jsOr_some_of_ne (s d : String) (h : s ≠ "") : jsOr (some s) d = s := by
  simp [jsOr, isEmpty_false_of_ne s h]

theorem strTruthy_some_iff (s : String) : strTruthy (some s) = true ↔ s ≠ "" := by
  constructor
  · intro h hc
    subst hc
    simp [strTruthy] at h
    exact absurd h (by decide)
  · intro h
    simp [strTruthy, isEmpty_false_of_ne s h]

theorem inlineImageUri_ne_empty (i : InlineData) : inlineImageUri i ≠ "" := by
  unfold inlineImageUri
  apply append_ne_empty_left
  apply append_ne_empty_left
  apply append_ne_empty_left
  decide

/-- The loop keeping the first inline payload agrees with `List.find?` on the
truthiness test `part.inlineData && part.inlineData.data`. -/
theorem firstInline_eq_find (parts : List RespPart) :
    firstInline parts = (parts.find? hasInlineImage).bind RespPart.inlineData := by
  induction parts with
  | nil => rfl
  | cons p rest ih =>
    cases hinl : p.inlineData with
    | none =>
      have hp : hasInlineImage p = false := by simp [hasInlineImage, hinl]
      simp [firstInline, hinl, List.find?_cons, hp, ih]
    | some i =>
      cases ht : strTruthy i.data with
      | false =>
        have hp : hasInlineImage p = false := by simp [hasInlineImage, hinl, ht]
        simp [firstInline, hinl, ht, List.find?_cons, hp, ih]
      | true =>
        have hp : hasInlineImage p = true := by simp [hasInlineImage, hinl, ht]
        simp [firstInline, hinl, ht, List.find?_cons, hp]

/-- The error string of the fallback branch, case-split on the text part. -/
theorem parseParts_error (parts : List RespPart) (h : firstInline parts = none) :
    (∀ q, findTextPart parts = some q →
      (parseParts parts).error = q.text ∧ q.text ≠ none ∧ q.text ≠ some "") ∧
    (findTextPart parts = none → (parseParts parts).error = some noImageError) := by
  constructor
  · intro q hq
    have h1 : List.find? (fun p => strTruthy p.text) parts = some q := hq
    have hqt : strTruthy q.text = true := by simpa using List.find?_some h1
    cases hqtx : q.text with
    | none => rw [hqtx] at hqt; simp [strTruthy] at hqt
    | some t =>
      rw [hqtx] at hqt
      have htne : t ≠ "" := (strTruthy_some_iff t).mp hqt
      refine ⟨?_, by simp, by simp [hqtx, htne]⟩
      simp [parseParts, h, hq, hqtx, jsOr_some_of_ne t noImageError htne]
  · intro hq
    simp [parseParts, h, hq, jsOr]

/-- Shape of every value `editImageWithGemini` returns: success paired with
the data URI of some inline payload and no error field, or failure with no
image and a non-empty error string. -/
theorem editImage_shape (imageData : List ImageInput) (prompt : String)
    (outcome : ApiOutcome) :
    (∃ i, editImageWithGemini imageData prompt outcome =
        { success := true, image := some (inlineImageUri i), error := none }) ∨
    (∃ e, editImageWithGemini imageData prompt outcome =
        { success := false, image := none, error := some e } ∧ e ≠ "") := by
  unfold editImageWithGemini
  split
  · exact Or.inr ⟨_, rfl, by decide⟩
  · cases outcome with
    | thrown msg =>
      exact Or.inr ⟨_, rfl, jsOr_ne_empty msg unexpectedError (by decide)⟩
    | ok resp =>
      obtain ⟨cands⟩ := resp
      cases cands with
      | none => exact Or.inr ⟨_, rfl, by decide⟩
      | some l =>
        cases l with
        | nil => exact Or.inr ⟨_, rfl, by decide⟩
        | cons c cs =>
          simp only [parseParts]
          cases hf : firstInline c.parts with
          | some i => exact Or.inl ⟨i, rfl⟩
          | none =>
            refine Or.inr ⟨_, rfl, ?_⟩
            exact jsOr_ne_empty _ noImageError (by decide)

/-- A list that disagrees with `a` on their common initial segment is not a
prefix of `a ++ t`, whatever `t` is. -/
theorem not_prefix_append_of_take_ne (a b t : List Char)
    (h : b.take a.length ≠ a.take b.length) : ¬ b <+: a ++ t := by
  intro hp
  apply h
  have h1 : b = (a ++ t).take b.length := List.prefix_iff_eq_take.mp hp
  have h2 : b.take a.length = (a ++ t).take (min a.length b.length) := by
    conv_lhs => rw [h1]
    rw [List.take_take]
  have h3 : a.take b.length = (a ++ t).take (min a.length b.length) := by
    rcases Nat.le_total b.length a.length with hb | hb
    · rw [Nat.min_eq_right hb]
      calc a.take b.length
          = ((a ++ t).take a.length).take b.length := by rw [List.take_left]
        _ = (a ++ t).take (min b.length a.length) := by rw [List.take_take]
        _ = (a ++ t).take b.length := by rw [Nat.min_eq_left hb]
    · rw [Nat.min_eq_left hb, List.take_left, List.take_of_length_le hb]
  rw [h2, h3]

/-- Stripping a recognised header: `cleanBase64` removes exactly the header
from a string that starts with it. -/
theorem cleanBase64_strip (payload : String) :
    cleanBase64 ("data:image/png;base64," ++ payload) = payload ∧
    cleanBase64 ("data:image/jpeg;base64," ++ payload) = payload ∧
    cleanBase64 ("data:image/jpg;base64," ++ payload) = payload ∧
    cleanBase64 ("data:image/webp;base64," ++ payload) = payload := by
  have hpos : ∀ p : String, p.data.isPrefixOf (p.data ++ payload.data) = true := by
    intro p
    exact List.isPrefixOf_iff_prefix.mpr (List.prefix_append p.data payload.data)
  have hneg : ∀ p q : String, q.data.take p.data.length ≠ p.data.take q.data.length →
      p.data.isPrefixOf (q ++ payload).data = false := by
    intro p q hne
    rw [String.data_append]
    apply Bool.eq_false_iff.mpr
    intro hc
    have hpre := List.isPrefixOf_iff_prefix.mp hc
    exact not_prefix_append_of_take_ne q.data p.data payload.data
      (fun he => hne he.symm) hpre
  have hdrop : ∀ q : String, String.mk (((q ++ payload).data).drop q.data.length) = payload := by
    intro q
    rw [String.data_append, List.drop_left]
  refine ⟨?_, ?_, ?_, ?_⟩
  · rw [cleanBase64, dataUriHeaders]
    rw [List.find?_cons_of_pos _ (by rw [String.data_append]; exact hpos _)]
    exact hdrop _
  · rw [cleanBase64, dataUriHeaders]
    rw [List.find?_cons_of_neg _
      (by simp [hneg "data:image/png;base64," "data:image/jpeg;base64," (by decide)])]
    rw [List.find?_cons_of_pos _ (by rw [String.data_append]; exact hpos _)]
    exact hdrop _
  · rw [cleanBase64, dataUriHeaders]
    rw [List.find?_cons_of_neg _
      (by simp [hneg "data:image/png;base64," "data:image/jpg;base64," (by decide)])]
    rw [List.find?_cons_of_neg _
      (by simp [hneg "data:image/jpeg;base64," "data:image/jpg;base64," (by decide)])]
    rw [List.find?_cons_of_pos _ (by rw [String.data_append]; exact hpos _)]
    exact hdrop _
  · rw [cleanBase64, dataUriHeaders]
    rw [List.find?_cons_of_neg _
      (by simp [hneg "data:image/png;base64," "data:image/webp;base64," (by decide)])]
    rw [List.find?_cons_of_neg _
      (by simp [hneg "data:image/jpeg;base64," "data:image/webp;base64," (by decide)])]
    rw [List.find?_cons_of_neg _
      (by simp [hneg "data:image/jpg;base64," "data:image/webp;base64," (by decide)])]
    rw [List.find?_cons_of_pos _ (by rw [String.data_append]; exact hpos _)]
    exact hdrop _

/-- When no recognised header starts the string, `cleanBase64` is the
identity. -/
theorem cleanBase64_id (s : String)
    (h : ∀ p ∈ dataUriHeaders, p.data.isPrefixOf s.data = false) :
    cleanBase64 s = s := by
  rw [cleanBase64]
  rw [List.find?_eq_none.mpr (fun p hp => by simp [h p hp])]

theorem skipMessage_ne_empty (name : String) : skipMessage name ≠ "" := by
  unfold skipMessage
  exact append_ne_empty_right _ _ (by decide)

theorem foldl_accumulate_go (msgs : List String) :
    ∀ acc : String, acc ≠ "" →
      msgs.foldl accumulate acc = String.intercalate.go acc " " msgs := by
  induction msgs with
  | nil => intro acc _; rfl
  | cons a as ih =>
    intro acc hacc
    have hstep : accumulate acc a = acc ++ " " ++ a := by
      simp [accumulate, isEmpty_false_of_ne acc hacc]
    have hne : acc ++ " " ++ a ≠ "" := by
      apply append_ne_empty_left
      exact append_ne_empty_right _ _ (by decide)
    calc (a :: as).foldl accumulate acc
        = as.foldl accumulate (accumulate acc a) := rfl
      _ = as.foldl accumulate (acc ++ " " ++ a) := by rw [hstep]
      _ = String.intercalate.go (acc ++ " " ++ a) " " as := ih _ hne
      _ = String.intercalate.go acc " " (a :: as) := rfl

/-- Folding the Editor's message accumulator over non-empty messages,
starting from the cleared message, joins them with single spaces. -/
theorem foldl_accumulate_intercalate (msgs : List String)
    (h : ∀ m ∈ msgs, m ≠ "") :
    msgs.foldl accumulate "" = String.intercalate " " msgs := by
  cases msgs with
  | nil => rfl
  | cons m ms =>
    have hm : m ≠ "" := h m (by simp)
    have h0 : accumulate "" m = m := by
      have he : ("" : String).isEmpty = true := by decide
      rw [accumulate, if_pos he]
      rfl
    calc (m :: ms).foldl accumulate ""
        = ms.foldl accumulate (accumulate "" m) := rfl
      _ = ms.foldl accumulate m := by rw [h0]
      _ = String.intercalate.go m " " ms := foldl_accumulate_go ms m hm
      _ = String.intercalate " " (m :: ms) := rfl

/-- Invariants of the `processFiles` loop: the collected entries are exactly
the image files in order (each storing its file's MIME type), and the error
accumulator is folded over one skip message per non-image file. -/
theorem processFilesAux_spec (fresh : Nat → String × String) (files : List JSFile) :
    ∀ (i : Nat) (err : String),
      (processFilesAux fresh files i err).2.map UploadedImage.file =
        files.filter isImageFile ∧
      (∀ u ∈ (processFilesAux fresh files i err).2, u.mimeType = u.file.type) ∧
      (processFilesAux fresh files i err).1 =
        ((files.filter (fun f => !isImageFile f)).map
          (fun f => skipMessage f.name)).foldl accumulate err := by
  induction files with
  | nil =>
    intro i err
    exact ⟨rfl, by simp [processFilesAux], rfl⟩
  | cons f rest ih =>
    intro i err
    cases hf : isImageFile f with
    | true =>
      obtain ⟨ih1, ih2, ih3⟩ := ih (i + 1) err
      refine ⟨?_, ?_, ?_⟩
      · simp [processFilesAux, hf, ih1]
      · intro u hu
        simp only [processFilesAux, hf, if_true, List.mem_cons] at hu
        rcases hu with hu | hu
        · subst hu; rfl
        · exact ih2 u hu
      · simp [processFilesAux, hf, ih3]
    | false =>
      obtain ⟨ih1, ih2, ih3⟩ := ih (i + 1) (accumulate err (skipMessage f.name))
      refine ⟨?_, ?_, ?_⟩
      · simp [processFilesAux, hf, ih1]
      · intro u hu
        simp only [processFilesAux, hf] at hu
        exact ih2 u (by simpa using hu)
      · simp [processFilesAux, hf, ih3]

/-! ## Claims -/

/-- C1: for every API response whose candidate list is non-empty,
`editImageWithGemini` returns success with the payload of the first part
carrying truthy inline image data, formatted as a data URI; when no part
carries inline image data it returns failure whose error is the text of the
first part carrying truthy text, or the fixed fallback message when no such
text part exists. -/
theorem C1_response_parsing (imageData : List ImageInput) (prompt : String)
    (c : Candidate) (cs : List Candidate) (h : imageData ≠ []) :
    (∀ p i, c.parts.find? hasInlineImage = some p → p.inlineData = some i →
      (editImageWithGemini imageData prompt (ApiOutcome.ok ⟨some (c :: cs)⟩)).success = true ∧
      (editImageWithGemini imageData prompt (ApiOutcome.ok ⟨some (c :: cs)⟩)).image =
        some (inlineImageUri i) ∧
      (editImageWithGemini imageData prompt (ApiOutcome.ok ⟨some (c :: cs)⟩)).error = none) ∧
    (c.parts.find? hasInlineImage = none →
      (∀ q, findTextPart c.parts = some q →
        (editImageWithGemini imageData prompt (ApiOutcome.ok ⟨some (c :: cs)⟩)).success = false ∧
        (editImageWithGemini imageData prompt (ApiOutcome.ok ⟨some (c :: cs)⟩)).image = none ∧
        (editImageWithGemini imageData prompt (ApiOutcome.ok ⟨some (c :: cs)⟩)).error = q.text) ∧
      (findTextPart c.parts = none →
        (editImageWithGemini imageData prompt (ApiOutcome.ok ⟨some (c :: cs)⟩)).success = false ∧
        (editImageWithGemini imageData prompt (ApiOutcome.ok ⟨some (c :: cs)⟩)).image = none ∧
        (editImageWithGemini imageData prompt (ApiOutcome.ok ⟨some (c :: cs)⟩)).error =
          some noImageError)) := by
  have hlen : ¬ imageData.length = 0 := by simpa [List.length_eq_zero] using h
  have hred : editImageWithGemini imageData prompt (ApiOutcome.ok ⟨some (c :: cs)⟩) =
      parseParts c.parts := by
    unfold editImageWithGemini
    rw [if_neg hlen]
  constructor
  · intro p i hp hi
    have hfi : firstInline c.parts = some i := by
      rw [firstInline_eq_find, hp]
      simp [hi]
    rw [hred]
    simp [parseParts, hfi]
  · intro hnone
    have hfi : firstInline c.parts = none := by
      rw [firstInline_eq_find, hnone]
      rfl
    obtain ⟨he1, he2⟩ := parseParts_error c.parts hfi
    constructor
    · intro q hq
      rw [hred]
      refine ⟨?_, ?_, (he1 q hq).1⟩ <;> simp [parseParts, hfi]
    · intro hq
      rw [hred]
      refine ⟨?_, ?_, he2 hq⟩ <;> simp [parseParts, hfi]

theorem C1_witness :
    (editImageWithGemini [⟨"d", "image/png"⟩] "p"
      (ApiOutcome.ok ⟨some [⟨[⟨some ⟨some "image/png", some "QQ"⟩, none⟩]⟩]⟩)).success = true ∧
    (editImageWithGemini [⟨"d", "image/png"⟩] "p"
      (ApiOutcome.ok ⟨some [⟨[⟨some ⟨some "image/png", some "QQ"⟩, none⟩]⟩]⟩)).image =
      some "data:image/png;base64,QQ" := by
  have h := (C1_response_parsing [⟨"d", "image/png"⟩] "p"
    ⟨[⟨some ⟨some "image/png", some "QQ"⟩, none⟩]⟩ [] (by decide)).1
    ⟨some ⟨some "image/png", some "QQ"⟩, none⟩ ⟨some "image/png", some "QQ"⟩
    (by rfl) (by rfl)
  exact ⟨h.1, h.2.1.trans (by decide)⟩

/-- C2: `editImageWithGemini` is a total function into `EditResponse`; every
failure — a rejected call, a missing or empty candidate list, or a first
candidate with no truthy inline image part — produces `success = false`, and
every unsuccessful response carries a single non-empty error string. -/
theorem C2_error_surfacing (imageData : List ImageInput) (prompt : String)
    (outcome : ApiOutcome) :
    ((editImageWithGemini imageData prompt outcome).success = false →
      ∃ s, (editImageWithGemini imageData prompt outcome).error = some s ∧ s ≠ "") ∧
    (∀ m, outcome = ApiOutcome.thrown m →
      (editImageWithGemini imageData prompt outcome).success = false) ∧
    (∀ resp, outcome = ApiOutcome.ok resp →
      (resp.candidates = none ∨ resp.candidates = some []) →
      (editImageWithGemini imageData prompt outcome).success = false) ∧
    (∀ resp c cs, outcome = ApiOutcome.ok resp → resp.candidates = some (c :: cs) →
      c.parts.find? hasInlineImage = none →
      (editImageWithGemini imageData prompt outcome).success = false) := by
  refine ⟨?_, ?_, ?_, ?_⟩
  · intro hf
    rcases editImage_shape imageData prompt outcome with ⟨i, hr⟩ | ⟨e, hr, hne⟩
    · rw [hr] at hf
      simp at hf
    · exact ⟨e, by rw [hr], hne⟩
  · intro m hm
    subst hm
    unfold editImageWithGemini
    split <;> rfl
  · intro resp hr hcand
    subst hr
    obtain ⟨cands⟩ := resp
    have hc : cands = none ∨ cands = some [] := hcand
    unfold editImageWithGemini
    split
    · rfl
    · rcases hc with h1 | h1 <;> subst h1 <;> rfl
  · intro resp c cs hr hcand hfind
    subst hr
    obtain ⟨cands⟩ := resp
    have hc : cands = some (c :: cs) := hcand
    subst hc
    have hfi : firstInline c.parts = none := by
      rw [firstInline_eq_find, hfind]
      rfl
    unfold editImageWithGemini
    split
    · rfl
    · simp [parseParts, hfi]

theorem C2_witness :
    (editImageWithGemini [⟨"d", "image/png"⟩] "p" (ApiOutcome.thrown none)).success = false ∧
    (editImageWithGemini [⟨"d", "image/png"⟩] "p" (ApiOutcome.thrown none)).error =
      some unexpectedError ∧
    unexpectedError ≠ "" := by
  have h := C2_error_surfacing [⟨"d", "image/png"⟩] "p" (ApiOutcome.thrown none)
  have hs := h.2.1 none rfl
  exact ⟨hs, by decide, by decide⟩

/-- C8: every response of `editImageWithGemini` has the image field defined
and the error field absent exactly when `success` is true, and the error
field defined and the image field absent exactly when `success` is false. -/
theorem C8_response_invariant (imageData : List ImageInput) (prompt : String)
    (outcome : ApiOutcome) :
    ((editImageWithGemini imageData prompt outcome).success = true →
      (editImageWithGemini imageData prompt outcome).image.isSome = true ∧
      (editImageWithGemini imageData prompt outcome).error = none) ∧
    ((editImageWithGemini imageData prompt outcome).success = false →
      (editImageWithGemini imageData prompt outcome).error.isSome = true ∧
      (editImageWithGemini imageData prompt outcome).image = none) ∧
    ((editImageWithGemini imageData prompt outcome).success = true ↔
      (editImageWithGemini imageData prompt outcome).image.isSome = true) := by
  rcases editImage_shape imageData prompt outcome with ⟨i, hr⟩ | ⟨e, hr, -⟩ <;>
    rw [hr] <;> simp

theorem C8_witness :
    (editImageWithGemini [] "p" (ApiOutcome.thrown none)).error.isSome = true ∧
    (editImageWithGemini [] "p" (ApiOutcome.thrown none)).image = none := by
  exact (C8_response_invariant [] "p" (ApiOutcome.thrown none)).2.1 (by decide)

/-- C3: the request assembled for a non-empty upload list is exactly one text
part carrying the instruction, followed by one inline image part per uploaded
image in upload order, each paired with that image's stored MIME type (its
data being the cleaned base64 of the file's data URL). -/
theorem C3_request_shape (imgs : List UploadedImage) (prompt : String)
    (_h : imgs ≠ []) :
    (allContentsParts (imageInputsOf imgs) prompt).length = imgs.length + 1 ∧
    (allContentsParts (imageInputsOf imgs) prompt).head? =
      some (RequestPart.text prompt) ∧
    (∀ k img, imgs[k]? = some img →
      (allContentsParts (imageInputsOf imgs) prompt)[k + 1]? =
        some (RequestPart.inlineImage img.mimeType (cleanBase64 img.file.dataUrl))) := by
  refine ⟨?_, rfl, ?_⟩
  · simp [allContentsParts, imagePartsOf, imageInputsOf]
  · intro k img hk
    simp [allContentsParts, imagePartsOf, imageInputsOf, hk]

theorem C3_witness :
    (allContentsParts (imageInputsOf
        [⟨"i1", ⟨"a.png", "image/png", "data:image/png;base64,QQ"⟩, "u1", "image/png"⟩])
      "go").length = 2 ∧
    (allContentsParts (imageInputsOf
        [⟨"i1", ⟨"a.png", "image/png", "data:image/png;base64,QQ"⟩, "u1", "image/png"⟩])
      "go").head? = some (RequestPart.text "go") ∧
    (allContentsParts (imageInputsOf
        [⟨"i1", ⟨"a.png", "image/png", "data:image/png;base64,QQ"⟩, "u1", "image/png"⟩])
      "go")[1]? = some (RequestPart.inlineImage "image/png" "QQ") := by
  have h := C3_request_shape
    [⟨"i1", ⟨"a.png", "image/png", "data:image/png;base64,QQ"⟩, "u1", "image/png"⟩]
    "go" (by decide)
  refine ⟨h.1, h.2.1, ?_⟩
  have h2 := h.2.2 0
    ⟨"i1", ⟨"a.png", "image/png", "data:image/png;base64,QQ"⟩, "u1", "image/png"⟩ rfl
  exact h2.trans (by decide)

/-- C4 counterexample: the file type `image/gif` passes the upload filter,
but the regex in `editImageWithGemini` only recognises the png/jpeg/jpg/webp
headers, so the inline part keeps the full data URI instead of the bare
base64 payload the claim promises. -/
theorem C4_counterexample :
    isImageFile ⟨"a.gif", "image/gif", "data:image/gif;base64,Zm9v"⟩ = true ∧
    imagePartsOf (imageInputsOf
        [⟨"id1", ⟨"a.gif", "image/gif", "data:image/gif;base64,Zm9v"⟩, "u1", "image/gif"⟩]) =
      [RequestPart.inlineImage "image/gif" "data:image/gif;base64,Zm9v"] ∧
    ("data:image/gif;base64,Zm9v" : String) ≠ "Zm9v" := by decide

/-- C4 amended: the `data:<mime>;base64,` prefix is removed exactly when the
data URI starts with one of the four recognised headers (png, jpeg, jpg,
webp); any string starting with none of them — e.g. the data URI of a gif
upload — is passed through unchanged. -/
theorem C4_base64_cleaning :
    (∀ payload : String,
      cleanBase64 ("data:image/png;base64," ++ payload) = payload ∧
      cleanBase64 ("data:image/jpeg;base64," ++ payload) = payload ∧
      cleanBase64 ("data:image/jpg;base64," ++ payload) = payload ∧
      cleanBase64 ("data:image/webp;base64," ++ payload) = payload) ∧
    (∀ s : String, (∀ p ∈ dataUriHeaders, p.data.isPrefixOf s.data = false) →
      cleanBase64 s = s) :=
  ⟨cleanBase64_strip, cleanBase64_id⟩

theorem C4_witness :
    cleanBase64 ("data:image/webp;base64," ++ "AA") = "AA" ∧
    cleanBase64 "data:image/gif;base64,Zm9v" = "data:image/gif;base64,Zm9v" := by
  refine ⟨(C4_base64_cleaning.1 "AA").2.2.2, ?_⟩
  exact C4_base64_cleaning.2 "data:image/gif;base64,Zm9v" (by decide)

/-- C5: a generate action on an empty upload list or a blank (whitespace-only)
prompt only sets the blocking message, and its result does not depend on the
outcome of the external call — the call is never made. -/
theorem C5_blocked_generate (s : EditorState) (o : ApiOutcome)
    (h : s.uploadedImages = [] ∨ promptBlank s.prompt = true) :
    handleGenerate s o = { s with errorMessage := blockedMessage } ∧
    (∀ o2 : ApiOutcome, handleGenerate s o2 = handleGenerate s o) := by
  have hb : submissionBlocked s = true := by
    rcases h with h1 | h1
    · simp [submissionBlocked, h1]
    · simp [submissionBlocked, h1]
  constructor
  · simp [handleGenerate, hb]
  · intro o2
    simp [handleGenerate, hb]

theorem C5_witness :
    handleGenerate ⟨[], none, "p", AppState.IDLE, ""⟩ (ApiOutcome.thrown none) =
      ⟨[], none, "p", AppState.IDLE, blockedMessage⟩ ∧
    handleGenerate ⟨[], none, "p", AppState.IDLE, ""⟩ (ApiOutcome.ok ⟨none⟩) =
      handleGenerate ⟨[], none, "p", AppState.IDLE, ""⟩ (ApiOutcome.thrown none) := by
  have h := C5_blocked_generate ⟨[], none, "p", AppState.IDLE, ""⟩
    (ApiOutcome.thrown none) (Or.inl rfl)
  exact ⟨h.1, h.2 (ApiOutcome.ok ⟨none⟩)⟩

/-- C10: when the submission check blocks a generate action, only the error
message changes — the UI status, the uploaded-image list, the result URL and
the prompt keep their previous values. -/
theorem C10_blocked_frame (s : EditorState) (o : ApiOutcome)
    (h : s.uploadedImages = [] ∨ promptBlank s.prompt = true) :
    (handleGenerate s o).appState = s.appState ∧
    (handleGenerate s o).uploadedImages = s.uploadedImages ∧
    (handleGenerate s o).resultUrl = s.resultUrl ∧
    (handleGenerate s o).prompt = s.prompt ∧
    (handleGenerate s o).errorMessage = blockedMessage := by
  have hb : submissionBlocked s = true := by
    rcases h with h1 | h1
    · simp [submissionBlocked, h1]
    · simp [submissionBlocked, h1]
  refine ⟨?_, ?_, ?_, ?_, ?_⟩ <;> simp [handleGenerate, hb]

theorem C10_witness :
    (handleGenerate ⟨[], some "r", "  ", AppState.SUCCESS, ""⟩
      (ApiOutcome.thrown none)).appState = AppState.SUCCESS ∧
    (handleGenerate ⟨[], some "r", "  ", AppState.SUCCESS, ""⟩
      (ApiOutcome.thrown none)).resultUrl = some "r" ∧
    (handleGenerate ⟨[], some "r", "  ", AppState.SUCCESS, ""⟩
      (ApiOutcome.thrown none)).errorMessage = blockedMessage := by
  have h := C10_blocked_frame ⟨[], some "r", "  ", AppState.SUCCESS, ""⟩
    (ApiOutcome.thrown none) (Or.inl rfl)
  exact ⟨h.1, h.2.2.1, h.2.2.2.2⟩

/-- C6: for every processed file list, the image files (type starting with
`image/`) are appended to the existing upload list in input order, each entry
keeping its file's MIME type, while the non-image files are skipped and the
error message becomes their skip messages joined by single spaces. -/
theorem C6_upload_filter (fresh : Nat → String × String) (s : EditorState)
    (files : List JSFile) :
    (processFiles fresh s files).uploadedImages.take s.uploadedImages.length =
      s.uploadedImages ∧
    ((processFiles fresh s files).uploadedImages.drop s.uploadedImages.length).map
      UploadedImage.file = files.filter isImageFile ∧
    (∀ u ∈ (processFiles fresh s files).uploadedImages.drop s.uploadedImages.length,
      u.mimeType = u.file.type) ∧
    (processFiles fresh s files).errorMessage =
      String.intercalate " " ((files.filter (fun f => !isImageFile f)).map
        (fun f => skipMessage f.name)) := by
  obtain ⟨h1, h2, h3⟩ := processFilesAux_spec fresh files 0 ""
  refine ⟨?_, ?_, ?_, ?_⟩
  · simp [processFiles, List.take_left]
  · simp only [processFiles]
    rw [List.drop_left]
    exact h1
  · intro u hu
    simp only [processFiles] at hu
    rw [List.drop_left] at hu
    exact h2 u hu
  · simp only [processFiles]
    rw [h3]
    apply foldl_accumulate_intercalate
    intro m hm
    simp only [List.mem_map] at hm
    obtain ⟨f, -, hf⟩ := hm
    exact hf ▸ skipMessage_ne_empty f.name

theorem C6_witness :
    (processFiles (fun _ => ("i", "u")) ⟨[], none, "p", AppState.IDLE, "old"⟩
      [⟨"a.txt", "text/plain", "u1"⟩, ⟨"b.png", "image/png", "u2"⟩]).errorMessage =
      skipMessage "a.txt" ∧
    (⟨"i", ⟨"b.png", "image/png", "u2"⟩, "u", "image/png"⟩ : UploadedImage).mimeType =
      (⟨"b.png", "image/png", "u2"⟩ : JSFile).type := by
  have h := C6_upload_filter (fun _ => ("i", "u")) ⟨[], none, "p", AppState.IDLE, "old"⟩
    [⟨"a.txt", "text/plain", "u1"⟩, ⟨"b.png", "image/png", "u2"⟩]
  refine ⟨h.2.2.2.trans (by decide), ?_⟩
  exact h.2.2.1 ⟨"i", ⟨"b.png", "image/png", "u2"⟩, "u", "image/png"⟩ (by decide)

theorem strTruthy_isSome (x : Option String) (h : strTruthy x = true) :
    x.isSome = true := by
  cases x with
  | none => simp [strTruthy] at h
  | some s => rfl

/-- A successful service response always carries a truthy (non-empty) image
string: the wrapper never returns `success` with an absent or empty URI. -/
theorem editImage_success_truthy (imageData : List ImageInput) (prompt : String)
    (outcome : ApiOutcome)
    (h : (editImageWithGemini imageData prompt outcome).success = true) :
    strTruthy (editImageWithGemini imageData prompt outcome).image = true := by
  rcases editImage_shape imageData prompt outcome with ⟨i, hr⟩ | ⟨e, hr, -⟩
  · rw [hr]
    exact (strTruthy_some_iff (inlineImageUri i)).mpr (inlineImageUri_ne_empty i)
  · rw [hr] at h
    simp at h

/-- C7: the UI status ranges over exactly the four enum values; a generate
action that passes the submission check first moves the state to PROCESSING,
and completion lands on SUCCESS exactly when the service response succeeded
with an image present, and on ERROR otherwise. -/
theorem C7_status_machine (s : EditorState) (o : ApiOutcome)
    (h : submissionBlocked s = false) :
    (∀ a : AppState, a = AppState.IDLE ∨ a = AppState.PROCESSING ∨
      a = AppState.SUCCESS ∨ a = AppState.ERROR) ∧
    (handleGenerateProcessing s).appState = AppState.PROCESSING ∧
    ((handleGenerate s o).appState = AppState.SUCCESS ↔
      ((editImageWithGemini (imageInputsOf s.uploadedImages) s.prompt o).success = true ∧
       (editImageWithGemini (imageInputsOf s.uploadedImages) s.prompt o).image.isSome = true)) ∧
    ((handleGenerate s o).appState = AppState.ERROR ↔
      ¬((editImageWithGemini (imageInputsOf s.uploadedImages) s.prompt o).success = true ∧
        (editImageWithGemini (imageInputsOf s.uploadedImages) s.prompt o).image.isSome = true)) := by
  have hgen : handleGenerate s o = handleGenerateComplete (handleGenerateProcessing s)
      (editImageWithGemini (imageInputsOf s.uploadedImages) s.prompt o) := by
    rw [handleGenerate, if_neg (by simp [h])]
  refine ⟨fun a => by cases a <;> simp, rfl, ?_, ?_⟩
  · rw [hgen]
    cases hc : ((editImageWithGemini (imageInputsOf s.uploadedImages) s.prompt o).success &&
        strTruthy (editImageWithGemini (imageInputsOf s.uploadedImages) s.prompt o).image) with
    | true =>
      rw [handleGenerateComplete, if_pos hc]
      simp only [Bool.and_eq_true] at hc
      simp only [true_iff]
      exact ⟨hc.1, strTruthy_isSome _ hc.2⟩
    | false =>
      rw [handleGenerateComplete, if_neg (by simp [hc])]
      simp only
      constructor
      · intro habs
        exact absurd habs (by simp)
      · intro ⟨h1, _⟩
        have ht := editImage_success_truthy (imageInputsOf s.uploadedImages) s.prompt o h1
        rw [h1, ht] at hc
        simp at hc
  · rw [hgen]
    cases hc : ((editImageWithGemini (imageInputsOf s.uploadedImages) s.prompt o).success &&
        strTruthy (editImageWithGemini (imageInputsOf s.uploadedImages) s.prompt o).image) with
    | true =>
      rw [handleGenerateComplete, if_pos hc]
      simp only [Bool.and_eq_true] at hc
      constructor
      · intro habs
        exact absurd habs (by simp)
      · intro habs
        exact absurd ⟨hc.1, strTruthy_isSome _ hc.2⟩ habs
    | false =>
      rw [handleGenerateComplete, if_neg (by simp [hc])]
      simp only [true_iff]
      intro ⟨h1, _⟩
      have ht := editImage_success_truthy (imageInputsOf s.uploadedImages) s.prompt o h1
      rw [h1, ht] at hc
      simp at hc

theorem C7_witness :
    (handleGenerateProcessing
      ⟨[⟨"i", ⟨"a.png", "image/png", "data:image/png;base64,QQ"⟩, "u", "image/png"⟩],
        none, "go", AppState.IDLE, ""⟩).appState = AppState.PROCESSING ∧
    (handleGenerate
      ⟨[⟨"i", ⟨"a.png", "image/png", "data:image/png;base64,QQ"⟩, "u", "image/png"⟩],
        none, "go", AppState.IDLE, ""⟩
      (ApiOutcome.ok ⟨some [⟨[⟨some ⟨none, some "ZZ"⟩, none⟩]⟩]⟩)).appState =
      AppState.SUCCESS := by
  have h := C7_status_machine
    ⟨[⟨"i", ⟨"a.png", "image/png", "data:image/png;base64,QQ"⟩, "u", "image/png"⟩],
      none, "go", AppState.IDLE, ""⟩
    (ApiOutcome.ok ⟨some [⟨[⟨some ⟨none, some "ZZ"⟩, none⟩]⟩]⟩) (by decide)
  exact ⟨h.2.1, h.2.2.1.mpr ⟨by decide, by decide⟩⟩

/-- C9 counterexample: a response part whose `inlineData.mimeType` is present
but equal to the empty string does not "lack a mimeType", yet the returned
data URI uses `image/png` rather than the part's mimeType (the code tests JS
truthiness, not presence). -/
theorem C9_counterexample :
    (editImageWithGemini [⟨"d", "image/png"⟩] "p"
      (ApiOutcome.ok ⟨some [⟨[⟨some ⟨some "", some "AAA"⟩, none⟩]⟩]⟩)).image =
      some "data:image/png;base64,AAA" ∧
    some "data:image/png;base64,AAA" ≠ some ("data:" ++ "" ++ ";base64," ++ "AAA") := by
  exact ⟨by decide, by decide⟩

/-- C9 amended: the data URI's content type falls back to `image/png` when the
inline part's mimeType is missing or empty, and is the part's mimeType when
that string is non-empty. -/
theorem C9_mime_fallback (imageData : List ImageInput) (prompt : String)
    (i : InlineData) (rest : List RespPart) (cs : List Candidate)
    (hne : imageData ≠ []) (hd : strTruthy i.data = true) :
    ((i.mimeType = none ∨ i.mimeType = some "") →
      (editImageWithGemini imageData prompt
        (ApiOutcome.ok ⟨some (⟨⟨some i, none⟩ :: rest⟩ :: cs)⟩)).image =
        some ("data:image/png;base64," ++ i.data.getD "")) ∧
    (∀ m, i.mimeType = some m → m ≠ "" →
      (editImageWithGemini imageData prompt
        (ApiOutcome.ok ⟨some (⟨⟨some i, none⟩ :: rest⟩ :: cs)⟩)).image =
        some ("data:" ++ m ++ ";base64," ++ i.data.getD "")) := by
  have hlen : ¬ imageData.length = 0 := by simpa [List.length_eq_zero] using hne
  have hred : editImageWithGemini imageData prompt
      (ApiOutcome.ok ⟨some (⟨⟨some i, none⟩ :: rest⟩ :: cs)⟩) =
      parseParts (⟨some i, none⟩ :: rest) := by
    unfold editImageWithGemini
    rw [if_neg hlen]
  have hfi : firstInline (⟨some i, none⟩ :: rest) = some i := by
    simp [firstInline, hd]
  constructor
  · intro hm
    rw [hred]
    simp only [parseParts, hfi, inlineImageUri]
    rcases hm with h1 | h1 <;> rw [h1]
    · rw [show ("data:" ++ jsOr none "image/png" ++ ";base64," : String) =
        "data:image/png;base64," by decide]
    · rw [show ("data:" ++ jsOr (some "") "image/png" ++ ";base64," : String) =
        "data:image/png;base64," by decide]
  · intro m hm hmne
    rw [hred]
    simp only [parseParts, hfi, inlineImageUri]
    rw [hm, jsOr_some_of_ne m "image/png" hmne]

theorem C9_witness :
    (editImageWithGemini [⟨"d", "image/png"⟩] "p"
      (ApiOutcome.ok ⟨some [⟨[⟨some ⟨none, some "AA"⟩, none⟩]⟩]⟩)).image =
      some "data:image/png;base64,AA" := by
  have h := (C9_mime_fallback [⟨"d", "image/png"⟩] "p" ⟨none, some "AA"⟩ [] []
    (by decide) (by decide)).1 (Or.inl rfl)
  exact h.trans (by decide)
